import Mathlib

/-!
Verification of the open-spend storage/query layer (`src/storage.js`).

The JavaScript source is shallowly embedded: JS numbers become `ℚ`,
JS strings become `String` with explicit code-unit-level helpers for
the string operations the code uses (`toLowerCase`, `includes`,
lexicographic `<=`, and the stable date-descending sort), JS objects
used as maps become association lists, and the JSON connection file
becomes an explicit `StoreData` value threaded through the operations.
-/

namespace OpenSpend

/-- ASCII lowercasing of one character, as JS `toLowerCase` acts on the
data appearing in this repository. -/
def charToLower (c : Char) : Char :=
  if 65 ≤ c.toNat ∧ c.toNat ≤ 90 then Char.ofNat (c.toNat + 32) else c

/-- JS `String.prototype.toLowerCase` on the embedded strings. -/
def jsToLower (s : String) : String := ⟨s.data.map charToLower⟩

/-- Lexicographic `≤` on code units, the semantics of JS `<=` / `>=`
on strings (used for the inclusive date bounds). -/
def lexLeB : List Char → List Char → Bool
  | [], _ => true
  | _ :: _, [] => false
  | a :: as, b :: bs =>
    if a.toNat < b.toNat then true
    else if b.toNat < a.toNat then false
    else lexLeB as bs

/-- JS string `s <= t` (and `t >= s`). -/
def strLeB (s t : String) : Bool := lexLeB s.data t.data

/-- Does the character list start with the given needle (helper for
JS `String.prototype.includes`). -/
def startsWithL : List Char → List Char → Bool
  | [], _ => true
  | _ :: _, [] => false
  | a :: as, b :: bs => decide (a = b) && startsWithL as bs

/-- Substring occurrence on character lists. -/
def containsL (n : List Char) : List Char → Bool
  | [] => startsWithL n []
  | c :: t => startsWithL n (c :: t) || containsL n t

/-- JS `hay.includes(needle)`. -/
def strIncludes (hay needle : String) : Bool := containsL needle.data hay.data

/-- A bank transaction record, as in `MOCK_TRANSACTIONS` and the cached
Plaid data (`src/storage.js`). -/
structure Txn where
  id : String
  date : String
  amount : ℚ
  merchant : String
  category : String
  account : String
deriving DecidableEq

/-- A bank account record (`MOCK_ACCOUNTS` and connection account lists).
`balance` is optional to model the `a.balance || 0` guard in the source. -/
structure Account where
  id : String
  name : String
  type : String
  balance : Option ℚ
  institution : String
deriving DecidableEq

/-- A stored Plaid connection: only the fields the storage layer reads. -/
structure Connection where
  accessToken : String
  accounts : Option (List Account)
deriving DecidableEq

/-- A per-user transaction cache entry (`data.transactionCache[userId]`). -/
structure CacheEntry where
  transactions : List Txn
  cachedAt : String
deriving DecidableEq

/-- The contents of the JSON connections file: `connections` and
`transactionCache`, both keyed by user id. -/
structure StoreData where
  connections : List (String × Connection)
  transactionCache : List (String × CacheEntry)
deriving DecidableEq

/-- The canned dataset `MOCK_TRANSACTIONS` from `src/storage.js`. -/
def MOCK_TRANSACTIONS : List Txn :=
  [ ⟨"txn_001", "2026-01-02", -45.67, "Whole Foods Market", "groceries", "Chase Checking"⟩,
    ⟨"txn_002", "2026-01-03", -12.50, "Starbucks", "food", "Chase Checking"⟩,
    ⟨"txn_003", "2026-01-05", 3500.00, "Employer Direct Deposit", "income", "Chase Checking"⟩,
    ⟨"txn_004", "2026-01-06", -89.99, "Amazon", "shopping", "Amex Platinum"⟩,
    ⟨"txn_005", "2026-01-07", -150.00, "PG&E", "utilities", "Chase Checking"⟩,
    ⟨"txn_006", "2026-01-08", -35.00, "Uber", "transport", "Amex Platinum"⟩,
    ⟨"txn_007", "2026-01-10", -78.50, "Trader Joes", "groceries", "Chase Checking"⟩,
    ⟨"txn_008", "2026-01-12", -25.00, "Netflix", "entertainment", "Amex Platinum"⟩,
    ⟨"txn_009", "2026-01-12", -15.99, "Spotify", "entertainment", "Amex Platinum"⟩,
    ⟨"txn_010", "2026-01-15", -200.00, "CVS Pharmacy", "health", "Chase Checking"⟩,
    ⟨"txn_011", "2026-01-18", -65.00, "Chipotle", "food", "Amex Platinum"⟩,
    ⟨"txn_012", "2026-01-19", 3500.00, "Employer Direct Deposit", "income", "Chase Checking"⟩,
    ⟨"txn_013", "2026-01-20", -1200.00, "Rent Payment", "housing", "Chase Checking"⟩,
    ⟨"txn_014", "2026-01-22", -55.00, "Shell Gas Station", "transport", "Chase Checking"⟩,
    ⟨"txn_015", "2026-01-24", -125.00, "Target", "shopping", "Amex Platinum"⟩,
    ⟨"txn_016", "2026-01-25", -42.00, "Grubhub", "food", "Amex Platinum"⟩,
    ⟨"txn_017", "2026-01-27", -95.50, "Costco", "groceries", "Chase Checking"⟩,
    ⟨"txn_018", "2026-01-28", 500.00, "Venmo Transfer", "transfer", "Chase Checking"⟩,
    ⟨"txn_019", "2026-01-29", -180.00, "United Airlines", "travel", "Amex Platinum"⟩,
    ⟨"txn_020", "2026-01-30", -28.00, "Lyft", "transport", "Amex Platinum"⟩ ]

/-- The canned dataset `MOCK_ACCOUNTS` from `src/storage.js`. -/
def MOCK_ACCOUNTS : List Account :=
  [ ⟨"acc_001", "Chase Checking", "checking", some 4250.33, "Chase"⟩,
    ⟨"acc_002", "Amex Platinum", "credit", some (-892.48), "American Express"⟩ ]

/-- Source `getCachedTransactions(userId)`: look the user up in the cache. -/
def getCachedTransactions (d : StoreData) (userId : String) : Option CacheEntry :=
  d.transactionCache.lookup userId

/-- Source `getUserConnection(userId)`. -/
def getUserConnection (d : StoreData) (userId : String) : Option Connection :=
  d.connections.lookup userId

/-- The source resolution step of `getTransactions`: the cached set for a
truthy user id with a cache entry, else the canned dataset
(`[...cached.transactions]` / `[...MOCK_TRANSACTIONS]`, copies in value
semantics). -/
def resolveTxns (d : StoreData) (userId : Option String) : List Txn :=
  match userId with
  | some u =>
    if u.isEmpty then MOCK_TRANSACTIONS
    else
      match getCachedTransactions d u with
      | some c => c.transactions
      | none => MOCK_TRANSACTIONS
  | none => MOCK_TRANSACTIONS

/-- The `filters` object accepted by `getTransactions`. -/
structure Filters where
  category : Option String := none
  merchant : Option String := none
  startDate : Option String := none
  endDate : Option String := none
  minAmount : Option ℚ := none
  maxAmount : Option ℚ := none
  account : Option String := none
  limit : Option Int := none

/-- Source `if (filters.startDate) transactions.filter(t => t.date >= filters.startDate)`;
a JS string is truthy exactly when nonempty. -/
def filterStartDate (o : Option String) (ts : List Txn) : List Txn :=
  match o with
  | some s => if s.isEmpty then ts else ts.filter (fun t => strLeB s t.date)
  | none => ts

/-- Source `if (filters.endDate) transactions.filter(t => t.date <= filters.endDate)`. -/
def filterEndDate (o : Option String) (ts : List Txn) : List Txn :=
  match o with
  | some e => if e.isEmpty then ts else ts.filter (fun t => strLeB t.date e)
  | none => ts

/-- Source `if (filters.category) transactions.filter(t => t.category === filters.category.toLowerCase())`. -/
def filterCategory (o : Option String) (ts : List Txn) : List Txn :=
  match o with
  | some c => if c.isEmpty then ts
      else ts.filter (fun t => decide (t.category = jsToLower c))
  | none => ts

/-- Source `if (filters.merchant) ... t.merchant.toLowerCase().includes(search)`. -/
def filterMerchant (o : Option String) (ts : List Txn) : List Txn :=
  match o with
  | some m => if m.isEmpty then ts
      else ts.filter (fun t => strIncludes (jsToLower t.merchant) (jsToLower m))
  | none => ts

/-- Source `if (filters.minAmount !== undefined) ... t.amount >= filters.minAmount`. -/
def filterMinAmount (o : Option ℚ) (ts : List Txn) : List Txn :=
  match o with
  | some mn => ts.filter (fun t => decide (mn ≤ t.amount))
  | none => ts

/-- Source `if (filters.maxAmount !== undefined) ... t.amount <= filters.maxAmount`. -/
def filterMaxAmount (o : Option ℚ) (ts : List Txn) : List Txn :=
  match o with
  | some mx => ts.filter (fun t => decide (t.amount ≤ mx))
  | none => ts

/-- Source `if (filters.account) ... t.account.toLowerCase().includes(search)`. -/
def filterAccount (o : Option String) (ts : List Txn) : List Txn :=
  match o with
  | some a => if a.isEmpty then ts
      else ts.filter (fun t => strIncludes (jsToLower t.account) (jsToLower a))
  | none => ts

/-- The seven `if (filters.x)` filter stages of `getTransactions`, applied
in source order. -/
def applyFilters (fl : Filters) (ts0 : List Txn) : List Txn :=
  filterAccount fl.account
    (filterMaxAmount fl.maxAmount
      (filterMinAmount fl.minAmount
        (filterEndDate fl.endDate
          (filterStartDate fl.startDate
            (filterMerchant fl.merchant
              (filterCategory fl.category ts0))))))

/-- Sort order used by `transactions.sort((a, b) => b.date.localeCompare(a.date))`:
date descending. -/
def dateDesc (a b : Txn) : Prop := strLeB b.date a.date = true

instance : DecidableRel dateDesc := fun _ _ => Bool.decEq _ _

/-- JS `arr.slice(0, n)` for a possibly negative `n`. -/
def jsSlice (ts : List Txn) (n : Int) : List Txn :=
  ts.take (if 0 ≤ n then n.toNat else ((ts.length : Int) + n).toNat)

/-- Source `if (filters.limit) transactions.slice(0, filters.limit)`; a JS number
is truthy exactly when nonzero. -/
def applyLimit (lim : Option Int) (ts : List Txn) : List Txn :=
  match lim with
  | some n => if n = 0 then ts else jsSlice ts n
  | none => ts

/-- Source `getTransactions(userId, filters)`: resolve, filter, sort date
descending (stable), then truncate. -/
def getTransactions (d : StoreData) (userId : Option String) (fl : Filters) : List Txn :=
  applyLimit fl.limit ((applyFilters fl (resolveTxns d userId)).insertionSort dateDesc)

/-- Source `getAccounts(userId)`: a connection's account list if present, else
the canned accounts. -/
def getAccounts (d : StoreData) (userId : Option String) : List Account :=
  match userId with
  | some u =>
    if u.isEmpty then MOCK_ACCOUNTS
    else
      match getUserConnection d u with
      | some conn =>
        match conn.accounts with
        | some accs => accs
        | none => MOCK_ACCOUNTS
      | none => MOCK_ACCOUNTS
  | none => MOCK_ACCOUNTS

/-- One `{ total, count }` value of the spending summary object. -/
structure SpendEntry where
  total : ℚ
  count : ℕ
deriving DecidableEq

/-- One loop iteration of `getSpendingSummary`: create the `{total: 0, count: 0}`
slot if absent, then `total += Math.abs(t.amount); count += 1`. -/
def addTxn (m : List (String × SpendEntry)) (t : Txn) : List (String × SpendEntry) :=
  (if m.any (fun p => decide (p.1 = t.category)) then m
   else m ++ [(t.category, ⟨0, 0⟩)]).map (fun p =>
    if decide (p.1 = t.category) then (p.1, ⟨p.2.total + |t.amount|, p.2.count + 1⟩)
    else p)

/-- The Boolean eligibility test of `getSpendingSummary`:
`t.amount < 0 && t.category !== 'income' && t.category !== 'transfer'`. -/
def spendEligB (t : Txn) : Bool :=
  decide (t.amount < 0) && !(decide (t.category = "income")) && !(decide (t.category = "transfer"))

/-- The filtered transaction list `getSpendingSummary` folds over. -/
def spendingEligibleTxns (d : StoreData) (userId : Option String)
    (startDate endDate : Option String) : List Txn :=
  filterEndDate endDate (filterStartDate startDate
    ((getTransactions d userId {}).filter spendEligB))

/-- Source `getSpendingSummary(userId, startDate, endDate)`; the JS summary object
becomes an association list in key-creation order. -/
def getSpendingSummary (d : StoreData) (userId : Option String)
    (startDate endDate : Option String) : List (String × SpendEntry) :=
  (spendingEligibleTxns d userId startDate endDate).foldl addTxn []

/-- Result record of `getTotalBalance`. -/
structure BalanceSummary where
  checking : ℚ
  creditOwed : ℚ
  netWorth : ℚ
deriving DecidableEq

/-- Source `a.balance || 0`. -/
def balanceOrZero (a : Account) : ℚ :=
  match a.balance with
  | some b => b
  | none => 0

/-- The checking-like reduce of `getTotalBalance`. -/
def checkingSum (accounts : List Account) : ℚ :=
  (accounts.filter (fun a => decide (a.type = "checking") || decide (a.type = "depository"))).foldl
    (fun s a => s + balanceOrZero a) 0

/-- The credit reduce of `getTotalBalance`. -/
def creditSum (accounts : List Account) : ℚ :=
  (accounts.filter (fun a => decide (a.type = "credit"))).foldl
    (fun s a => s + balanceOrZero a) 0

/-- The body of `getTotalBalance` as a function of the resolved accounts. -/
def totalBalanceOf (accounts : List Account) : BalanceSummary :=
  ⟨checkingSum accounts, |creditSum accounts|, checkingSum accounts + creditSum accounts⟩

/-- Source `getTotalBalance(userId)`. -/
def getTotalBalance (d : StoreData) (userId : Option String) : BalanceSummary :=
  totalBalanceOf (getAccounts d userId)

/-- Result record of `getIncomeSummary` and `getCategorySpending`. -/
structure QuerySummary where
  total : ℚ
  count : ℕ
  transactions : List Txn
deriving DecidableEq

/-- The filtered transaction list of `getIncomeSummary`
(`t.category === 'income' || t.amount > 0`, then the date bounds). -/
def incomeEligibleTxns (d : StoreData) (userId : Option String)
    (startDate endDate : Option String) : List Txn :=
  filterEndDate endDate (filterStartDate startDate
    ((getTransactions d userId {}).filter
      (fun t => decide (t.category = "income") || decide (0 < t.amount))))

/-- Source `getIncomeSummary(userId, startDate, endDate)`. -/
def getIncomeSummary (d : StoreData) (userId : Option String)
    (startDate endDate : Option String) : QuerySummary :=
  ⟨(incomeEligibleTxns d userId startDate endDate).foldl (fun s t => s + |t.amount|) 0,
    (incomeEligibleTxns d userId startDate endDate).length,
    incomeEligibleTxns d userId startDate endDate⟩

/-- The filtered transaction list of `getCategorySpending`
(`t.category === category.toLowerCase() && t.amount < 0`). -/
def categorySpendTxns (d : StoreData) (userId : Option String)
    (category : String) : List Txn :=
  (getTransactions d userId {}).filter
    (fun t => decide (t.category = jsToLower category) && decide (t.amount < 0))

/-- Source `getCategorySpending(userId, category)`. -/
def getCategorySpending (d : StoreData) (userId : Option String)
    (category : String) : QuerySummary :=
  ⟨(categorySpendTxns d userId category).foldl (fun s t => s + |t.amount|) 0,
    (categorySpendTxns d userId category).length,
    categorySpendTxns d userId category⟩

/-- Per-transaction truth value of the category criterion (a skipped —
absent or empty — criterion accepts everything). -/
def catPass (o : Option String) (t : Txn) : Bool :=
  match o with
  | some c => if c.isEmpty then true else decide (t.category = jsToLower c)
  | none => true

/-- Per-transaction truth value of the merchant criterion. -/
def merchantPass (o : Option String) (t : Txn) : Bool :=
  match o with
  | some m => if m.isEmpty then true else strIncludes (jsToLower t.merchant) (jsToLower m)
  | none => true

/-- Per-transaction truth value of the inclusive startDate bound. -/
def startPass (o : Option String) (t : Txn) : Bool :=
  match o with
  | some s => if s.isEmpty then true else strLeB s t.date
  | none => true

/-- Per-transaction truth value of the inclusive endDate bound. -/
def endPass (o : Option String) (t : Txn) : Bool :=
  match o with
  | some e => if e.isEmpty then true else strLeB t.date e
  | none => true

/-- Per-transaction truth value of the minAmount bound. -/
def minPass (o : Option ℚ) (t : Txn) : Bool :=
  match o with
  | some mn => decide (mn ≤ t.amount)
  | none => true

/-- Per-transaction truth value of the maxAmount bound. -/
def maxPass (o : Option ℚ) (t : Txn) : Bool :=
  match o with
  | some mx => decide (t.amount ≤ mx)
  | none => true

/-- Per-transaction truth value of the account criterion. -/
def accountPass (o : Option String) (t : Txn) : Bool :=
  match o with
  | some a => if a.isEmpty then true else strIncludes (jsToLower t.account) (jsToLower a)
  | none => true

/-- The sum, over the categories present in a spending summary, of the
per-category `total` field. -/
def sumTotals (m : List (String × SpendEntry)) : ℚ :=
  (m.map (fun p => p.2.total)).sum

/-- JS object-key assignment `obj[k] = v` on an association list. -/
def upsert {α : Type} (k : String) (v : α) (m : List (String × α)) : List (String × α) :=
  if m.any (fun p => decide (p.1 = k)) then
    m.map (fun p => if decide (p.1 = k) then (k, v) else p)
  else m ++ [(k, v)]

/-- Source `saveUserConnection` as a state-passing operation: it writes the store. -/
def saveUserConnectionOp (d : StoreData) (userId : String) (c : Connection) :
    StoreData × Unit :=
  (⟨upsert userId c d.connections, d.transactionCache⟩, ())

/-- Source `cacheTransactions` as a state-passing operation: it writes the store. -/
def cacheTransactionsOp (d : StoreData) (userId : String) (ts : List Txn)
    (now : String) : StoreData × Unit :=
  (⟨d.connections, upsert userId ⟨ts, now⟩ d.transactionCache⟩, ())

/-- Source `getTransactions` as a state-passing operation: it only reads the store
(the source never calls `saveConnections`), so the state component is the
input store. -/
def getTransactionsOp (d : StoreData) (userId : Option String) (fl : Filters) :
    StoreData × List Txn :=
  (d, getTransactions d userId fl)

/-- Source `getAccounts` as a state-passing operation (read-only). -/
def getAccountsOp (d : StoreData) (userId : Option String) :
    StoreData × List Account :=
  (d, getAccounts d userId)

/-- Source `getSpendingSummary` as a state-passing operation (read-only). -/
def getSpendingSummaryOp (d : StoreData) (userId : Option String)
    (startDate endDate : Option String) : StoreData × List (String × SpendEntry) :=
  (d, getSpendingSummary d userId startDate endDate)

/-- Source `getTotalBalance` as a state-passing operation (read-only). -/
def getTotalBalanceOp (d : StoreData) (userId : Option String) :
    StoreData × BalanceSummary :=
  (d, getTotalBalance d userId)

/-- Source `getIncomeSummary` as a state-passing operation (read-only). -/
def getIncomeSummaryOp (d : StoreData) (userId : Option String)
    (startDate endDate : Option String) : StoreData × QuerySummary :=
  (d, getIncomeSummary d userId startDate endDate)

/-- Source `getCategorySpending` as a state-passing operation (read-only). -/
def getCategorySpendingOp (d : StoreData) (userId : Option String)
    (category : String) : StoreData × QuerySummary :=
  (d, getCategorySpending d userId category)

/-- A store with no connections and no cached transactions: every query
falls back to the canned dataset. -/
def estore : StoreData := ⟨[], []⟩

/-- The canned spend-eligible transactions in date-descending order
(negative amount, category neither income nor transfer). -/
def mockSpendSorted : List Txn :=
  [ ⟨"txn_020", "2026-01-30", -28.00, "Lyft", "transport", "Amex Platinum"⟩,
    ⟨"txn_019", "2026-01-29", -180.00, "United Airlines", "travel", "Amex Platinum"⟩,
    ⟨"txn_017", "2026-01-27", -95.50, "Costco", "groceries", "Chase Checking"⟩,
    ⟨"txn_016", "2026-01-25", -42.00, "Grubhub", "food", "Amex Platinum"⟩,
    ⟨"txn_015", "2026-01-24", -125.00, "Target", "shopping", "Amex Platinum"⟩,
    ⟨"txn_014", "2026-01-22", -55.00, "Shell Gas Station", "transport", "Chase Checking"⟩,
    ⟨"txn_013", "2026-01-20", -1200.00, "Rent Payment", "housing", "Chase Checking"⟩,
    ⟨"txn_011", "2026-01-18", -65.00, "Chipotle", "food", "Amex Platinum"⟩,
    ⟨"txn_010", "2026-01-15", -200.00, "CVS Pharmacy", "health", "Chase Checking"⟩,
    ⟨"txn_008", "2026-01-12", -25.00, "Netflix", "entertainment", "Amex Platinum"⟩,
    ⟨"txn_009", "2026-01-12", -15.99, "Spotify", "entertainment", "Amex Platinum"⟩,
    ⟨"txn_007", "2026-01-10", -78.50, "Trader Joes", "groceries", "Chase Checking"⟩,
    ⟨"txn_006", "2026-01-08", -35.00, "Uber", "transport", "Amex Platinum"⟩,
    ⟨"txn_005", "2026-01-07", -150.00, "PG&E", "utilities", "Chase Checking"⟩,
    ⟨"txn_004", "2026-01-06", -89.99, "Amazon", "shopping", "Amex Platinum"⟩,
    ⟨"txn_002", "2026-01-03", -12.50, "Starbucks", "food", "Chase Checking"⟩,
    ⟨"txn_001", "2026-01-02", -45.67, "Whole Foods Market", "groceries", "Chase Checking"⟩ ]

/-- A cached transaction whose stored category carries an uppercase letter. -/
def txnGroceriesUpper : Txn :=
  ⟨"txn_up1", "2026-02-01", -10, "Corner Market", "Groceries", "Chase Checking"⟩

/-- A store whose user `u1` has a cached transaction with category
`Groceries` (uppercase G). -/
def upperStore : StoreData := ⟨[], [("u1", ⟨[txnGroceriesUpper], "2026-02-02"⟩)]⟩

/-- A store whose user `u2` has an empty cached transaction list. -/
def emptyCacheStore : StoreData := ⟨[], [("u2", ⟨[], "2026-02-02"⟩)]⟩

/-- A one-transaction cached store used for concrete instantiations. -/
def smallStore : StoreData :=
  ⟨[], [("u3", ⟨[⟨"txn_s1", "2026-03-01", -5, "Corner Shop", "groceries", "Chase Checking"⟩],
    "2026-03-02"⟩)]⟩

/-- A credit-type account holding a positive balance. -/
def creditPosAccount : Account := ⟨"acc_cx", "Odd Credit", "credit", some 100, "Bank"⟩

/-- A fresh checking account with the given balance. -/
def checkingAccount (b : ℚ) : Account := ⟨"acc_chk", "New Checking", "checking", some b, "Bank"⟩

/-- A fresh credit account with the given balance. -/
def creditAccount (b : ℚ) : Account := ⟨"acc_crd", "New Credit", "credit", some b, "Bank"⟩

/-- A fresh account of an arbitrary type with the given balance. -/
def otherAccount (ty : String) (b : ℚ) : Account := ⟨"acc_oth", "New Other", ty, some b, "Bank"⟩

theorem lexLeB_total : ∀ s t : List Char, lexLeB s t = true ∨ lexLeB t s = true := by
  intro s
  induction s with
  | nil => intro t; left; rfl
  | cons a as ih =>
    intro t
    match t with
    | [] => right; rfl
    | b :: bs =>
      rcases Nat.lt_trichotomy a.toNat b.toNat with h | h | h
      · left; simp [lexLeB, h]
      · rcases ih bs with h' | h'
        · left; simp [lexLeB, h, h']
        · right; simp [lexLeB, h, h']
      · right; simp [lexLeB, h]

theorem lexLeB_cons_iff (a b : Char) (as bs : List Char) :
    lexLeB (a :: as) (b :: bs) = true ↔
      (a.toNat < b.toNat ∨ (a.toNat = b.toNat ∧ lexLeB as bs = true)) := by
  simp only [lexLeB]
  split_ifs with h1 h2
  · simp [h1]
  · constructor
    · intro h; cases h
    · intro h
      rcases h with h | ⟨h, _⟩ <;> omega
  · have heq : a.toNat = b.toNat := by omega
    simp [heq]

theorem lexLeB_trans : ∀ s t u : List Char,
    lexLeB s t = true → lexLeB t u = true → lexLeB s u = true := by
  intro s
  induction s with
  | nil => intro t u _ _; rfl
  | cons a as ih =>
    intro t u h1 h2
    match t, u with
    | [], _ => simp [lexLeB] at h1
    | _ :: _, [] => simp [lexLeB] at h2
    | b :: bs, c :: cs =>
      rw [lexLeB_cons_iff] at h1 h2 ⊢
      rcases h1 with h1 | ⟨h1e, h1r⟩
      · rcases h2 with h2 | ⟨h2e, _⟩
        · exact Or.inl (by omega)
        · exact Or.inl (by omega)
      · rcases h2 with h2 | ⟨h2e, h2r⟩
        · exact Or.inl (by omega)
        · exact Or.inr ⟨by omega, ih bs cs h1r h2r⟩

instance : IsTotal Txn dateDesc :=
  ⟨fun a b => by
    rcases lexLeB_total b.date.data a.date.data with h | h
    · left; exact h
    · right; exact h⟩

instance : IsTrans Txn dateDesc :=
  ⟨fun a b c hab hbc => lexLeB_trans c.date.data b.date.data a.date.data hbc hab⟩

theorem mem_filterCategory {o : Option String} {ts : List Txn} {t : Txn} :
    t ∈ filterCategory o ts ↔ t ∈ ts ∧ catPass o t = true := by
  cases o with
  | none => simp [filterCategory, catPass]
  | some c => by_cases hc : c.isEmpty <;> simp [filterCategory, catPass, hc, List.mem_filter]

theorem mem_filterMerchant {o : Option String} {ts : List Txn} {t : Txn} :
    t ∈ filterMerchant o ts ↔ t ∈ ts ∧ merchantPass o t = true := by
  cases o with
  | none => simp [filterMerchant, merchantPass]
  | some m => by_cases hm : m.isEmpty <;> simp [filterMerchant, merchantPass, hm, List.mem_filter]

theorem mem_filterStartDate {o : Option String} {ts : List Txn} {t : Txn} :
    t ∈ filterStartDate o ts ↔ t ∈ ts ∧ startPass o t = true := by
  cases o with
  | none => simp [filterStartDate, startPass]
  | some s => by_cases hs : s.isEmpty <;> simp [filterStartDate, startPass, hs, List.mem_filter]

theorem mem_filterEndDate {o : Option String} {ts : List Txn} {t : Txn} :
    t ∈ filterEndDate o ts ↔ t ∈ ts ∧ endPass o t = true := by
  cases o with
  | none => simp [filterEndDate, endPass]
  | some e => by_cases he : e.isEmpty <;> simp [filterEndDate, endPass, he, List.mem_filter]

theorem mem_filterMinAmount {o : Option ℚ} {ts : List Txn} {t : Txn} :
    t ∈ filterMinAmount o ts ↔ t ∈ ts ∧ minPass o t = true := by
  cases o with
  | none => simp [filterMinAmount, minPass]
  | some mn => simp [filterMinAmount, minPass, List.mem_filter]

theorem mem_filterMaxAmount {o : Option ℚ} {ts : List Txn} {t : Txn} :
    t ∈ filterMaxAmount o ts ↔ t ∈ ts ∧ maxPass o t = true := by
  cases o with
  | none => simp [filterMaxAmount, maxPass]
  | some mx => simp [filterMaxAmount, maxPass, List.mem_filter]

theorem mem_filterAccount {o : Option String} {ts : List Txn} {t : Txn} :
    t ∈ filterAccount o ts ↔ t ∈ ts ∧ accountPass o t = true := by
  cases o with
  | none => simp [filterAccount, accountPass]
  | some a => by_cases ha : a.isEmpty <;> simp [filterAccount, accountPass, ha, List.mem_filter]

theorem mem_applyFilters {fl : Filters} {ts : List Txn} {t : Txn} :
    t ∈ applyFilters fl ts ↔
      t ∈ ts ∧ catPass fl.category t = true ∧ merchantPass fl.merchant t = true ∧
        startPass fl.startDate t = true ∧ endPass fl.endDate t = true ∧
        minPass fl.minAmount t = true ∧ maxPass fl.maxAmount t = true ∧
        accountPass fl.account t = true := by
  simp only [applyFilters, mem_filterAccount, mem_filterMaxAmount, mem_filterMinAmount,
    mem_filterEndDate, mem_filterStartDate, mem_filterMerchant, mem_filterCategory]
  tauto

theorem mem_getTransactions (d : StoreData) (u : Option String) (fl : Filters)
    (h : fl.limit = none) {t : Txn} :
    t ∈ getTransactions d u fl ↔
      t ∈ resolveTxns d u ∧ catPass fl.category t = true ∧ merchantPass fl.merchant t = true ∧
        startPass fl.startDate t = true ∧ endPass fl.endDate t = true ∧
        minPass fl.minAmount t = true ∧ maxPass fl.maxAmount t = true ∧
        accountPass fl.account t = true := by
  rw [getTransactions, h]
  simp only [applyLimit, List.mem_insertionSort]
  exact mem_applyFilters

theorem mem_getTransactions_nofilters (d : StoreData) (u : Option String) {t : Txn} :
    t ∈ getTransactions d u {} ↔ t ∈ resolveTxns d u := by
  rw [mem_getTransactions d u {} rfl]
  simp [catPass, merchantPass, startPass, endPass, minPass, maxPass, accountPass]

theorem filterStartDate_eq_filter (o : Option String) (ts : List Txn) :
    filterStartDate o ts = ts.filter (startPass o) := by
  cases o with
  | none =>
    simp only [filterStartDate]
    symm
    rw [List.filter_eq_self]
    intro t _
    rfl
  | some s =>
    by_cases hs : s.isEmpty
    · simp only [filterStartDate, if_pos hs]
      symm
      rw [List.filter_eq_self]
      intro t _
      simp [startPass, hs]
    · simp only [filterStartDate, if_neg hs]
      apply List.filter_congr
      intro t _
      simp [startPass, hs]

theorem addTxn_not_mem_keys {m : List (String × SpendEntry)} {t : Txn}
    (h : ¬ m.any (fun p => decide (p.1 = t.category)) = true) :
    ∀ p ∈ m, ¬ p.1 = t.category := by
  intro p hp hcat
  apply h
  rw [List.any_eq_true]
  exact ⟨p, hp, by simp [hcat]⟩

theorem addTxn_keys (m : List (String × SpendEntry)) (t : Txn) :
    (addTxn m t).map Prod.fst =
      if m.any (fun p => decide (p.1 = t.category)) then m.map Prod.fst
      else m.map Prod.fst ++ [t.category] := by
  simp only [addTxn]
  by_cases h : m.any (fun p => decide (p.1 = t.category)) = true
  · rw [if_pos h, if_pos h, List.map_map]
    apply List.map_congr_left
    intro p _
    by_cases hp : p.1 = t.category <;> simp [hp, Function.comp]
  · have hnone := addTxn_not_mem_keys h
    rw [if_neg h, if_neg h, List.map_map, List.map_append]
    congr 1
    · apply List.map_congr_left
      intro p hp
      simp [Function.comp, hnone p hp]
    · simp [Function.comp]

theorem addTxn_keys_nodup {m : List (String × SpendEntry)} {t : Txn}
    (h : (m.map Prod.fst).Nodup) : ((addTxn m t).map Prod.fst).Nodup := by
  rw [addTxn_keys]
  by_cases hin : m.any (fun p => decide (p.1 = t.category)) = true
  · rwa [if_pos hin]
  · rw [if_neg hin]
    have hnone := addTxn_not_mem_keys hin
    simp only [List.nodup_append, List.nodup_cons, List.nodup_nil]
    refine ⟨h, by simp, ?_⟩
    intro k hk
    simp only [List.mem_singleton]
    intro hkc
    rcases List.mem_map.mp hk with ⟨p, hp, rfl⟩
    exact hnone p hp hkc

theorem map_id_of_mem {α : Type} {f : α → α} :
    ∀ {l : List α}, (∀ a ∈ l, f a = a) → l.map f = l := by
  intro l
  induction l with
  | nil => intro _; rfl
  | cons a as ih =>
    intro h
    simp only [List.map_cons]
    rw [h a (List.mem_cons_self a as), ih (fun b hb => h b (List.mem_cons_of_mem a hb))]

theorem sumTotals_map_upd (t : Txn) :
    ∀ m : List (String × SpendEntry), (m.map Prod.fst).Nodup →
      m.any (fun p => decide (p.1 = t.category)) = true →
      sumTotals (m.map (fun q =>
        if decide (q.1 = t.category) then (q.1, ⟨q.2.total + |t.amount|, q.2.count + 1⟩)
        else q)) = sumTotals m + |t.amount| := by
  intro m
  induction m with
  | nil => intro _ h; simp at h
  | cons p rest ih =>
    intro hnd hany
    simp only [List.map_cons, List.nodup_cons] at hnd
    by_cases hp : p.1 = t.category
    · have hrest : ∀ q ∈ rest, ¬ q.1 = t.category := by
        intro q hq hcat
        exact hnd.1 (List.mem_map.mpr ⟨q, hq, hcat.trans hp.symm⟩)
      have hmap : rest.map (fun q =>
          if decide (q.1 = t.category) then (q.1, ⟨q.2.total + |t.amount|, q.2.count + 1⟩)
          else q) = rest := map_id_of_mem (fun q hq => by simp [hrest q hq])
      simp only [List.map_cons, hmap]
      simp [sumTotals, hp]
      ring
    · have hany' : rest.any (fun p => decide (p.1 = t.category)) = true := by
        simpa [hp] using hany
      have ih' := ih hnd.2 hany'
      simp only [sumTotals, List.map_cons, List.sum_cons] at ih' ⊢
      simp only [hp, decide_False, Bool.false_eq_true, if_false]
      linarith

theorem sumTotals_addTxn {m : List (String × SpendEntry)} {t : Txn}
    (h : (m.map Prod.fst).Nodup) :
    sumTotals (addTxn m t) = sumTotals m + |t.amount| := by
  simp only [addTxn]
  by_cases hin : m.any (fun p => decide (p.1 = t.category)) = true
  · rw [if_pos hin]
    exact sumTotals_map_upd t m h hin
  · rw [if_neg hin]
    have hnone := addTxn_not_mem_keys hin
    rw [List.map_append]
    have h1 : m.map (fun q =>
        if decide (q.1 = t.category) then (q.1, ⟨q.2.total + |t.amount|, q.2.count + 1⟩)
        else q) = m := map_id_of_mem (fun q hq => by simp [hnone q hq])
    rw [h1]
    simp [sumTotals, List.map_append]

theorem sumTotals_foldl (l : List Txn) :
    ∀ m : List (String × SpendEntry), (m.map Prod.fst).Nodup →
      sumTotals (List.foldl addTxn m l) = sumTotals m + (l.map (fun t => |t.amount|)).sum := by
  induction l with
  | nil => intro m _; simp
  | cons t l ih =>
    intro m h
    simp only [List.foldl_cons, List.map_cons, List.sum_cons]
    rw [ih (addTxn m t) (addTxn_keys_nodup h), sumTotals_addTxn h]
    ring

theorem mem_addTxn_inv {Q : String → Prop} {m : List (String × SpendEntry)} {t : Txn}
    (hm : ∀ p ∈ m, Q p.1 ∧ 1 ≤ p.2.count) (ht : Q t.category) :
    ∀ p ∈ addTxn m t, Q p.1 ∧ 1 ≤ p.2.count := by
  intro p hp
  simp only [addTxn, List.mem_map] at hp
  obtain ⟨q, hq, hpe⟩ := hp
  have hq' : q ∈ m ∨ q = (t.category, ⟨0, 0⟩) := by
    by_cases hin : m.any (fun p => decide (p.1 = t.category)) = true
    · rw [if_pos hin] at hq
      exact Or.inl hq
    · rw [if_neg hin] at hq
      rcases List.mem_append.mp hq with h | h
      · exact Or.inl h
      · exact Or.inr (List.mem_singleton.mp h)
  by_cases hqc : q.1 = t.category
  · obtain rfl : p = (q.1, ⟨q.2.total + |t.amount|, q.2.count + 1⟩) := by
      rw [← hpe]
      simp [hqc]
    constructor
    · show Q q.1
      rw [hqc]
      exact ht
    · show 1 ≤ q.2.count + 1
      omega
  · obtain rfl : p = q := by
      rw [← hpe]
      simp [hqc]
    rcases hq' with h | h
    · exact hm p h
    · exact absurd (by rw [h]) hqc

theorem foldl_addTxn_inv {Q : String → Prop} (l : List Txn) :
    ∀ m : List (String × SpendEntry), (∀ p ∈ m, Q p.1 ∧ 1 ≤ p.2.count) →
      (∀ t ∈ l, Q t.category) →
      ∀ p ∈ List.foldl addTxn m l, Q p.1 ∧ 1 ≤ p.2.count := by
  induction l with
  | nil => intro m hm _; simpa using hm
  | cons t l ih =>
    intro m hm hl
    simp only [List.foldl_cons]
    exact ih (addTxn m t) (mem_addTxn_inv hm (hl t (List.mem_cons_self t l))) fun s hs =>
      hl s (List.mem_cons_of_mem _ hs)

theorem filterEndDate_eq_filter (o : Option String) (ts : List Txn) :
    filterEndDate o ts = ts.filter (endPass o) := by
  cases o with
  | none =>
    simp only [filterEndDate]
    symm
    rw [List.filter_eq_self]
    intro t _
    rfl
  | some e =>
    by_cases he : e.isEmpty
    · simp only [filterEndDate, if_pos he]
      symm
      rw [List.filter_eq_self]
      intro t _
      simp [endPass, he]
    · simp only [filterEndDate, if_neg he]
      apply List.filter_congr
      intro t _
      simp [endPass, he]

theorem mem_spendingEligibleTxns {d : StoreData} {u : Option String}
    {sd ed : Option String} {t : Txn} (h : t ∈ spendingEligibleTxns d u sd ed) :
    spendEligB t = true := by
  rw [spendingEligibleTxns, filterEndDate_eq_filter, filterStartDate_eq_filter] at h
  exact (List.mem_filter.mp (List.mem_filter.mp (List.mem_filter.mp h).1).1).2

/-- Claim C1: for every store, user and optional date bounds, the sum over
all categories of the per-category `total` returned by `getSpendingSummary`
equals the sum of `|amount|` over exactly the resolved transactions with
negative amount, category neither `income` nor `transfer`, and date within
the bounds. -/
theorem claim_C1 (d : StoreData) (u : Option String) (sd ed : Option String) :
    sumTotals (getSpendingSummary d u sd ed) =
      (((resolveTxns d u).filter
          (fun t => spendEligB t && startPass sd t && endPass ed t)).map
        (fun t => |t.amount|)).sum := by
  rw [getSpendingSummary, sumTotals_foldl _ [] (by simp)]
  simp only [sumTotals, List.map_nil, List.sum_nil, zero_add]
  rw [spendingEligibleTxns, filterEndDate_eq_filter, filterStartDate_eq_filter,
    List.filter_filter, List.filter_filter]
  have hgt : getTransactions d u {} = (resolveTxns d u).insertionSort dateDesc := rfl
  rw [hgt]
  have hcong : ∀ L : List Txn,
      L.filter (fun a => (endPass ed a && startPass sd a) && spendEligB a) =
        L.filter (fun t => spendEligB t && startPass sd t && endPass ed t) := by
    intro L
    apply List.filter_congr
    intro t _
    cases h1 : spendEligB t <;> cases h2 : startPass sd t <;> cases h3 : endPass ed t <;>
      simp [h1, h2, h3]
  rw [hcong]
  exact List.Perm.sum_eq (((List.perm_insertionSort dateDesc _).filter _).map _)

/-- Claim C4: every accessor and engine operation, run as a state-passing
operation over the persisted store, returns the store unchanged — the
returned data are value-semantics copies and no read operation writes the
connection list, the transaction cache, or the canned data. -/
theorem claim_C4 (d : StoreData) (u : Option String) (fl : Filters)
    (sd ed : Option String) (c : String) :
    (getTransactionsOp d u fl).1 = d ∧ (getAccountsOp d u).1 = d ∧
    (getSpendingSummaryOp d u sd ed).1 = d ∧ (getTotalBalanceOp d u).1 = d ∧
    (getIncomeSummaryOp d u sd ed).1 = d ∧ (getCategorySpendingOp d u c).1 = d :=
  ⟨rfl, rfl, rfl, rfl, rfl, rfl⟩

/-- Claim C6: for every store, user and date bounds, the spending summary
never contains the keys `income` or `transfer`, and every category present
has `count ≥ 1`. -/
theorem claim_C6 (d : StoreData) (u : Option String) (sd ed : Option String) :
    ∀ p ∈ getSpendingSummary d u sd ed,
      p.1 ≠ "income" ∧ p.1 ≠ "transfer" ∧ 1 ≤ p.2.count := by
  intro p hp
  have hcat : ∀ t ∈ spendingEligibleTxns d u sd ed,
      t.category ≠ "income" ∧ t.category ≠ "transfer" := by
    intro t ht
    have h := mem_spendingEligibleTxns ht
    simp only [spendEligB, Bool.and_eq_true, Bool.not_eq_true', decide_eq_false_iff_not] at h
    exact ⟨h.1.2, h.2⟩
  have h := foldl_addTxn_inv (Q := fun k => k ≠ "income" ∧ k ≠ "transfer")
    (spendingEligibleTxns d u sd ed) [] (by simp) hcat p hp
  exact ⟨h.1.1, h.1.2, h.2⟩

/-- Claim C6 witness: a concrete instantiation on a one-transaction store. -/
theorem claim_C6_witness :
    (("groceries", (⟨(0 : ℚ) + |(-5 : ℚ)|, 0 + 1⟩ : SpendEntry)) : String × SpendEntry).1 ≠ "income" ∧
    (("groceries", (⟨(0 : ℚ) + |(-5 : ℚ)|, 0 + 1⟩ : SpendEntry)) : String × SpendEntry).1 ≠ "transfer" ∧
    1 ≤ (("groceries", (⟨(0 : ℚ) + |(-5 : ℚ)|, 0 + 1⟩ : SpendEntry)) : String × SpendEntry).2.count :=
  claim_C6 smallStore (some "u3") none none _ (List.mem_singleton_self _)

/-- Claim C7: the filter criteria of `getTransactions` compose
conjunctively — membership in the all-criteria result coincides with
membership in each single-criterion result. -/
theorem claim_C7 (d : StoreData) (u : Option String) (c m sd ed : Option String)
    (mi ma : Option ℚ) (ac : Option String) (t : Txn) :
    t ∈ getTransactions d u ⟨c, m, sd, ed, mi, ma, ac, none⟩ ↔
      (t ∈ getTransactions d u ⟨c, none, none, none, none, none, none, none⟩ ∧
       t ∈ getTransactions d u ⟨none, m, none, none, none, none, none, none⟩ ∧
       t ∈ getTransactions d u ⟨none, none, sd, none, none, none, none, none⟩ ∧
       t ∈ getTransactions d u ⟨none, none, none, ed, none, none, none, none⟩ ∧
       t ∈ getTransactions d u ⟨none, none, none, none, mi, none, none, none⟩ ∧
       t ∈ getTransactions d u ⟨none, none, none, none, none, ma, none, none⟩ ∧
       t ∈ getTransactions d u ⟨none, none, none, none, none, none, ac, none⟩) := by
  rw [mem_getTransactions d u ⟨c, m, sd, ed, mi, ma, ac, none⟩ rfl,
    mem_getTransactions d u ⟨c, none, none, none, none, none, none, none⟩ rfl,
    mem_getTransactions d u ⟨none, m, none, none, none, none, none, none⟩ rfl,
    mem_getTransactions d u ⟨none, none, sd, none, none, none, none, none⟩ rfl,
    mem_getTransactions d u ⟨none, none, none, ed, none, none, none, none⟩ rfl,
    mem_getTransactions d u ⟨none, none, none, none, mi, none, none, none⟩ rfl,
    mem_getTransactions d u ⟨none, none, none, none, none, ma, none, none⟩ rfl,
    mem_getTransactions d u ⟨none, none, none, none, none, none, ac, none⟩ rfl]
  simp only [catPass, merchantPass, startPass, endPass, minPass, maxPass, accountPass]
  tauto

/-- Claim C8 counterexample: a cached transaction whose stored category is
`Groceries` (equal to the criterion `groceries` up to letter case) is not
selected, because the source lowercases only the criterion and compares it
to the stored category verbatim. -/
theorem claim_C8_counterexample :
    jsToLower txnGroceriesUpper.category = jsToLower "groceries" ∧
    txnGroceriesUpper ∈ resolveTxns upperStore (some "u1") ∧
    getTransactions upperStore (some "u1") {category := some "groceries"} = [] :=
  ⟨rfl, List.mem_singleton_self _, rfl⟩

/-- Claim C8 amended: a nonempty category criterion `c` of
`getTransactions`, and the category argument of `getCategorySpending`,
select exactly the transactions whose stored category is literally equal to
the lowercased criterion (so matching is case-insensitive in the criterion
only, not in the stored category). -/
theorem claim_C8_amended (d : StoreData) (u : Option String) (c : String) (t : Txn) :
    (t ∈ getTransactions d u {category := some c} ↔
      t ∈ resolveTxns d u ∧ (c.isEmpty = true ∨ t.category = jsToLower c)) ∧
    (t ∈ (getCategorySpending d u c).transactions ↔
      t ∈ resolveTxns d u ∧ t.category = jsToLower c ∧ t.amount < 0) := by
  constructor
  · rw [mem_getTransactions d u {category := some c} rfl]
    by_cases hc : c.isEmpty <;>
      simp [catPass, merchantPass, startPass, endPass, minPass, maxPass, accountPass, hc]
  · simp only [getCategorySpending, categorySpendTxns, List.mem_filter, Bool.and_eq_true,
      decide_eq_true_eq]
    rw [mem_getTransactions_nofilters]

/-- Claim C10: a `limit` of `0` is falsy in the source, so no truncation is
applied — the result is the same as with no limit at all. -/
theorem claim_C10 (d : StoreData) (u : Option String) (fl : Filters) :
    getTransactions d u {fl with limit := some 0} =
      getTransactions d u {fl with limit := none} := rfl

theorem checkingSum_append_hit {a : Account} (accs : List Account)
    (h : a.type = "checking" ∨ a.type = "depository") :
    checkingSum (accs ++ [a]) = checkingSum accs + balanceOrZero a := by
  rw [checkingSum, checkingSum, List.filter_append, List.foldl_append]
  have hf : List.filter (fun a => decide (a.type = "checking") || decide (a.type = "depository"))
      [a] = [a] := by
    rcases h with h | h <;> simp [h]
  rw [hf]
  rfl

theorem checkingSum_append_skip {a : Account} (accs : List Account)
    (h1 : a.type ≠ "checking") (h2 : a.type ≠ "depository") :
    checkingSum (accs ++ [a]) = checkingSum accs := by
  rw [checkingSum, checkingSum, List.filter_append]
  have hf : List.filter (fun a => decide (a.type = "checking") || decide (a.type = "depository"))
      [a] = [] := by simp [h1, h2]
  rw [hf, List.append_nil]

theorem creditSum_append_hit {a : Account} (accs : List Account) (h : a.type = "credit") :
    creditSum (accs ++ [a]) = creditSum accs + balanceOrZero a := by
  rw [creditSum, creditSum, List.filter_append, List.foldl_append]
  have hf : List.filter (fun a => decide (a.type = "credit")) [a] = [a] := by simp [h]
  rw [hf]
  rfl

theorem creditSum_append_skip {a : Account} (accs : List Account) (h : a.type ≠ "credit") :
    creditSum (accs ++ [a]) = creditSum accs := by
  rw [creditSum, creditSum, List.filter_append]
  have hf : List.filter (fun a => decide (a.type = "credit")) [a] = [] := by simp [h]
  rw [hf, List.append_nil]

/-- Claim C5 counterexample: when an existing credit-type account holds a
positive balance (here `+100`), appending a credit account with balance
`-50` moves `creditOwed` from `100` to `50`, not to `150` — the claimed
additivity of `creditOwed` fails on such account lists. -/
theorem claim_C5_counterexample :
    (totalBalanceOf ([creditPosAccount] ++ [creditAccount (-50)])).creditOwed ≠
      (totalBalanceOf [creditPosAccount]).creditOwed + 50 := by
  norm_num [totalBalanceOf, creditSum, checkingSum, balanceOrZero, creditPosAccount,
    creditAccount, List.filter, abs_of_nonneg]

/-- Claim C5 (amended): `getTotalBalance` is additive with provisos.
Appending a checking account with balance `B` raises `checking` and
`netWorth` by `B` and leaves `creditOwed` unchanged, for every account
list. Appending a credit account with balance `-B` raises `creditOwed` by
`B` and lowers `netWorth` by `B` provided `0 ≤ B` and the existing credit
balances sum to at most `0` (the counterexample forces both provisos).
Appending an account of any other type changes nothing. -/
theorem claim_C5_amended (accs : List Account) (B : ℚ) (ty : String) :
    ((totalBalanceOf (accs ++ [checkingAccount B])).checking =
        (totalBalanceOf accs).checking + B ∧
      (totalBalanceOf (accs ++ [checkingAccount B])).netWorth =
        (totalBalanceOf accs).netWorth + B ∧
      (totalBalanceOf (accs ++ [checkingAccount B])).creditOwed =
        (totalBalanceOf accs).creditOwed) ∧
    (0 ≤ B → creditSum accs ≤ 0 →
      ((totalBalanceOf (accs ++ [creditAccount (-B)])).creditOwed =
          (totalBalanceOf accs).creditOwed + B ∧
        (totalBalanceOf (accs ++ [creditAccount (-B)])).netWorth =
          (totalBalanceOf accs).netWorth - B ∧
        (totalBalanceOf (accs ++ [creditAccount (-B)])).checking =
          (totalBalanceOf accs).checking)) ∧
    (ty ≠ "checking" → ty ≠ "depository" → ty ≠ "credit" →
      totalBalanceOf (accs ++ [otherAccount ty B]) = totalBalanceOf accs) := by
  refine ⟨⟨?_, ?_, ?_⟩, ?_, ?_⟩
  · rw [totalBalanceOf, totalBalanceOf, checkingSum_append_hit accs (Or.inl rfl)]
    rfl
  · rw [totalBalanceOf, totalBalanceOf, checkingSum_append_hit accs (Or.inl rfl),
      creditSum_append_skip accs (by simp [checkingAccount])]
    show checkingSum accs + B + creditSum accs = checkingSum accs + creditSum accs + B
    ring
  · rw [totalBalanceOf, totalBalanceOf, creditSum_append_skip accs (by simp [checkingAccount])]
  · intro hB hC
    have hcr : creditSum (accs ++ [creditAccount (-B)]) = creditSum accs + (-B) :=
      creditSum_append_hit accs rfl
    have hch : checkingSum (accs ++ [creditAccount (-B)]) = checkingSum accs :=
      checkingSum_append_skip accs (by simp [creditAccount]) (by simp [creditAccount])
    refine ⟨?_, ?_, ?_⟩
    · show |creditSum (accs ++ [creditAccount (-B)])| = |creditSum accs| + B
      rw [hcr, abs_of_nonpos (by linarith), abs_of_nonpos hC]
      ring
    · show checkingSum (accs ++ [creditAccount (-B)]) + creditSum (accs ++ [creditAccount (-B)]) =
        checkingSum accs + creditSum accs - B
      rw [hcr, hch]
      ring
    · exact hch
  · intro h1 h2 h3
    rw [totalBalanceOf, totalBalanceOf, checkingSum_append_skip accs h1 h2,
      creditSum_append_skip accs h3]

/-- Claim C5 witness: a concrete application of the amended claim at the
empty account list, `B = 50`, and the excluded type `investment`. -/
theorem claim_C5_witness :
    0 ≤ (50 : ℚ) ∧ creditSum [] ≤ 0 ∧
    (totalBalanceOf ([] ++ [creditAccount (-50)])).creditOwed =
      (totalBalanceOf []).creditOwed + 50 ∧
    totalBalanceOf ([] ++ [otherAccount "investment" 50]) = totalBalanceOf [] :=
  ⟨by decide, by decide,
   ((claim_C5_amended [] 50 "investment").2.1 (by decide) (by decide)).1,
   (claim_C5_amended [] 50 "investment").2.2 (by decide) (by decide) (by decide)⟩

/-- Claim C9: the aggregate queries are total functions returning zeroed
records on empty eligible sets — an empty income set yields
`{total 0, count 0, transactions []}`, likewise for category spending, an
unrecognized (or simply absent) category yields the empty record rather
than an error, and an empty spend-eligible set yields the empty summary. -/
theorem claim_C9 (d : StoreData) (u : Option String) (sd ed : Option String) (c : String) :
    ((getIncomeSummary d u sd ed).transactions = [] →
      getIncomeSummary d u sd ed = ⟨0, 0, []⟩) ∧
    ((getCategorySpending d u c).transactions = [] →
      getCategorySpending d u c = ⟨0, 0, []⟩) ∧
    (jsToLower c ∉ (resolveTxns d u).map Txn.category →
      getCategorySpending d u c = ⟨0, 0, []⟩) ∧
    (spendingEligibleTxns d u sd ed = [] → getSpendingSummary d u sd ed = []) := by
  refine ⟨?_, ?_, ?_, ?_⟩
  · intro h
    simp only [getIncomeSummary] at h ⊢
    rw [h]
    rfl
  · intro h
    simp only [getCategorySpending] at h ⊢
    rw [h]
    rfl
  · intro h
    have hnil : categorySpendTxns d u c = [] := by
      rw [categorySpendTxns, List.filter_eq_nil_iff]
      intro t ht
      simp only [Bool.and_eq_true, decide_eq_true_eq, not_and]
      intro hcat _
      exact absurd (List.mem_map.mpr
        ⟨t, (mem_getTransactions_nofilters d u).mp ht, hcat⟩) h
    simp only [getCategorySpending]
    rw [hnil]
    rfl
  · intro h
    rw [getSpendingSummary, h]
    rfl

/-- Claim C9 witness: concrete applications — a user with an empty cached
transaction list gets zeroed summaries, and the unknown category
`Skydiving` on the canned dataset yields the empty record. -/
theorem claim_C9_witness :
    getIncomeSummary emptyCacheStore (some "u2") none none = ⟨0, 0, []⟩ ∧
    getCategorySpending emptyCacheStore (some "u2") "groceries" = ⟨0, 0, []⟩ ∧
    getCategorySpending estore none "Skydiving" = ⟨0, 0, []⟩ ∧
    getSpendingSummary emptyCacheStore (some "u2") none none = [] :=
  ⟨(claim_C9 emptyCacheStore (some "u2") none none "groceries").1 rfl,
   (claim_C9 emptyCacheStore (some "u2") none none "groceries").2.1 rfl,
   (claim_C9 estore none none none "Skydiving").2.2.1 (by decide),
   (claim_C9 emptyCacheStore (some "u2") none none "x").2.2.2 rfl⟩

/-- Claim C3 counterexample: the claim quantifies over every natural
`N ≤ M`, but at `N = 0` (with `M = 20` on the canned set) the code applies
no truncation and returns all 20 transactions instead of 0. -/
theorem claim_C3_counterexample :
    (getTransactions estore none {limit := some 0}).length = 20 ∧
    (getTransactions estore none {limit := some 0}).length ≠ 0 := by
  constructor <;> decide

/-- Claim C3 (amended): for every store, criteria and natural `N` with
`1 ≤ N` and `N` at most the size of the untruncated result, `limit = N`
returns exactly the first `N` elements of the date-descending sorted
filtered sequence — truncation happens only after sorting, and the
untruncated result is sorted date-descending. -/
theorem claim_C3_amended (d : StoreData) (u : Option String) (fl : Filters) (N : ℕ)
    (h1 : 1 ≤ N) (h2 : N ≤ (getTransactions d u {fl with limit := none}).length) :
    getTransactions d u {fl with limit := some (N : ℤ)} =
      (getTransactions d u {fl with limit := none}).take N ∧
    (getTransactions d u {fl with limit := some (N : ℤ)}).length = N ∧
    List.Sorted dateDesc (getTransactions d u {fl with limit := none}) := by
  have hbase : getTransactions d u {fl with limit := none} =
      (applyFilters fl (resolveTxns d u)).insertionSort dateDesc := rfl
  have hslice : getTransactions d u {fl with limit := some (N : ℤ)} =
      ((applyFilters fl (resolveTxns d u)).insertionSort dateDesc).take N := by
    show applyLimit (some (N : ℤ))
        ((applyFilters fl (resolveTxns d u)).insertionSort dateDesc) = _
    rw [applyLimit, if_neg (by omega), jsSlice, if_pos (by omega)]
    have hN : ((N : ℤ)).toNat = N := by omega
    rw [hN]
  refine ⟨?_, ?_, ?_⟩
  · rw [hslice, hbase]
  · rw [hslice, List.length_take]
    rw [hbase] at h2
    omega
  · rw [hbase]
    exact List.sorted_insertionSort dateDesc _

/-- Claim C3 witness: the concrete case `N = 3` on the canned dataset with
no filter criteria. -/
theorem claim_C3_witness :
    1 ≤ 3 ∧ 3 ≤ (getTransactions estore none {({} : Filters) with limit := none}).length ∧
    (getTransactions estore none {({} : Filters) with limit := some (3 : ℤ)} =
        (getTransactions estore none {({} : Filters) with limit := none}).take 3 ∧
      (getTransactions estore none {({} : Filters) with limit := some (3 : ℤ)}).length = 3 ∧
      List.Sorted dateDesc (getTransactions estore none {({} : Filters) with limit := none})) :=
  ⟨by decide, by decide, claim_C3_amended estore none {} 3 (by decide) (by decide)⟩

/-- Claim C2 counterexample: on the canned dataset the groceries spending
entry is not `{total 220.14, count 3}` — the three groceries amounts sum to
219.67, not the 220.14 the claim states. -/
theorem claim_C2_counterexample :
    (getSpendingSummary estore none none none).lookup "groceries" ≠
      some ⟨220.14, 3⟩ := by
  have h1 : spendingEligibleTxns estore none none none = mockSpendSorted := by
    rw [spendingEligibleTxns]
    norm_num [filterStartDate, filterEndDate, spendEligB, mockSpendSorted, List.filter]
    rfl
  have h2 : (mockSpendSorted.foldl addTxn []).lookup "groceries" =
      some ⟨0 + |(-95.50 : ℚ)| + |(-78.50 : ℚ)| + |(-45.67 : ℚ)|, 3⟩ := rfl
  rw [getSpendingSummary, h1, h2]
  simp only [ne_eq, Option.some.injEq, SpendEntry.mk.injEq, not_and]
  intro h
  norm_num [abs_of_nonneg] at h

/-- Claim C2 (amended): on the canned dataset, filtering by category
`groceries` returns exactly `txn_017, txn_007, txn_001` sorted by date
descending `2026-01-27, 2026-01-10, 2026-01-02`, and the sum of the
absolute amounts — equivalently the groceries total of the spending
summary with no date bounds — is 219.67 with count 3 (not 220.14). -/
theorem claim_C2_amended :
    (getTransactions estore none {category := some "groceries"}).map Txn.id =
      ["txn_017", "txn_007", "txn_001"] ∧
    (getTransactions estore none {category := some "groceries"}).map Txn.date =
      ["2026-01-27", "2026-01-10", "2026-01-02"] ∧
    ((getTransactions estore none {category := some "groceries"}).map
      (fun t => |t.amount|)).sum = 219.67 ∧
    (getSpendingSummary estore none none none).lookup "groceries" =
      some ⟨219.67, 3⟩ := by
  refine ⟨by decide, by decide, ?_, ?_⟩
  · have hg : getTransactions estore none {category := some "groceries"} =
        [ ⟨"txn_017", "2026-01-27", -95.50, "Costco", "groceries", "Chase Checking"⟩,
          ⟨"txn_007", "2026-01-10", -78.50, "Trader Joes", "groceries", "Chase Checking"⟩,
          ⟨"txn_001", "2026-01-02", -45.67, "Whole Foods Market", "groceries",
            "Chase Checking"⟩ ] := rfl
    rw [hg]
    norm_num [abs_of_nonneg]
  · have h1 : spendingEligibleTxns estore none none none = mockSpendSorted := by
      rw [spendingEligibleTxns]
      norm_num [filterStartDate, filterEndDate, spendEligB, mockSpendSorted, List.filter]
      rfl
    have h2 : (mockSpendSorted.foldl addTxn []).lookup "groceries" =
        some ⟨0 + |(-95.50 : ℚ)| + |(-78.50 : ℚ)| + |(-45.67 : ℚ)|, 3⟩ := rfl
    rw [getSpendingSummary, h1, h2]
    norm_num [abs_of_nonneg]

end OpenSpend
